import Mathlib

/-!
Verification of the pathfinding core of the Agent_RED repository
(`src/pathfinding/{tiles,trainer_vision,graph,astar,cross_map,__init__}.py`),
as a shallow embedding in Lean 4.

Conventions of the embedding:
* Python `float` costs are modelled as `ℚ`; `float('inf')` is modelled by
  `Option ℚ` with `none` standing for infinity (the code only ever compares
  a weight against infinity, never does arithmetic with it).
* Python `dict`s used as mutable maps are modelled as association lists with
  first-match lookup; an assignment conses a fresh binding in front, which
  has the same lookup semantics.
* Python `set`s of coordinates / trainer ids are modelled as duplicate-free
  lists built by `pyInsert` (membership is the only observation the embedded
  code makes of a set, and `pyInsert` preserves it exactly).
* Python `None`-able parameters are modelled with `Option`.
* Python's truthiness tests (`x or d`, `if direction:`, `if dest_map:`) are
  modelled by explicit functions mirroring them, including the falsiness of
  `0`, `""` and `None`.
-/

attribute [local semireducible] Rat.add Rat.mul Rat.inv Rat.sub

namespace AgentRed

/-- `str.upper()` on the ASCII strings the pathfinding core handles
(`String.toUpper`, written through the character list so that it reduces in
the kernel). -/
def pyUpper (s : String) : String :=
  String.mk (s.data.map Char.toUpper)

/-- `set.add`: append the element unless it is already present.  Membership —
the only query the embedded code makes of a set — matches Python's exactly. -/
def pyInsert {α : Type} [DecidableEq α] (l : List α) (a : α) : List α :=
  if a ∈ l then l else l ++ [a]

/-- `set.update` / set union: add every element of `m` to `l`. -/
def pyUnion {α : Type} [DecidableEq α] (l m : List α) : List α :=
  m.foldl pyInsert l

/-! ## tiles.py -/

/-- `TileType(IntEnum)` from `src/pathfinding/tiles.py`. -/
inductive TileType where
  | BLOCKED
  | WALKABLE
  | GRASS
  | WATER
  | CUT_TREE
  | STRENGTH_BOULDER
  | LEDGE_DOWN
  | LEDGE_LEFT
  | LEDGE_RIGHT
  | WARP
  | TRAINER_VISION
deriving DecidableEq

/-- `TileWeights` dataclass. Field defaults are provided by `TileWeights.default`. -/
structure TileWeights where
  walkable : ℚ
  grass : ℚ
  water : ℚ
  cut_tree : ℚ
  strength_boulder : ℚ
  trainer_adjacent : ℚ
deriving DecidableEq

/-- The dataclass defaults: `walkable=1.0, grass=3.0, water=1.5, cut_tree=2.0,
strength_boulder=3.0, trainer_adjacent=100.0`. -/
def TileWeights.default : TileWeights :=
  ⟨1, 3, 3/2, 2, 3, 100⟩

/-- `BASE_TILE_WEIGHTS` dict; `none` is `float('inf')`. -/
def BASE_TILE_WEIGHTS : TileType → Option ℚ
  | .BLOCKED => none
  | .WALKABLE => some 1
  | .GRASS => some 3
  | .WATER => none
  | .CUT_TREE => none
  | .STRENGTH_BOULDER => none
  | .LEDGE_DOWN => some 1
  | .LEDGE_LEFT => some 1
  | .LEDGE_RIGHT => some 1
  | .WARP => some 1
  | .TRAINER_VISION => some 100

/-- `set(hm.upper() for hm in (hms_available or []))`, kept as a list; only
membership is ever queried, so a list is an adequate model of the Python set. -/
def upperHMs (hms_available : Option (List String)) : List String :=
  (hms_available.getD []).map pyUpper

/-- `get_tile_weight(tile_type, hms_available=None, weights=None)`. -/
def get_tile_weight (tile_type : TileType) (hms_available : Option (List String))
    (weights : Option TileWeights) : Option ℚ :=
  let hms := upperHMs hms_available
  let w := weights.getD TileWeights.default
  if tile_type = .WATER then
    if "SURF" ∈ hms then some w.water else none
  else if tile_type = .CUT_TREE then
    if "CUT" ∈ hms then some w.cut_tree else none
  else if tile_type = .STRENGTH_BOULDER then
    if "STRENGTH" ∈ hms then some w.strength_boulder else none
  else if tile_type = .GRASS then
    some w.grass
  else if tile_type = .TRAINER_VISION then
    some w.trainer_adjacent
  else
    BASE_TILE_WEIGHTS tile_type

/-- The `ledge_directions` dict inside `can_traverse_ledge`. -/
def ledge_directions : TileType → Option String
  | .LEDGE_DOWN => some "DOWN"
  | .LEDGE_LEFT => some "LEFT"
  | .LEDGE_RIGHT => some "RIGHT"
  | _ => none

/-- `can_traverse_ledge(ledge_type, direction)`:
`ledge_directions.get(ledge_type) == direction.upper()`
(`None == s` is `False` in Python). -/
def can_traverse_ledge (ledge_type : TileType) (direction : String) : Bool :=
  ledge_directions ledge_type == some (pyUpper direction)

/-- `is_passable(tile_type, direction=None, hms_available=None)`.
The Python guard `if direction:` is false both for `None` and for `""`. -/
def is_passable (tile_type : TileType) (direction : Option String)
    (hms_available : Option (List String)) : Bool :=
  if tile_type = .BLOCKED then false
  else if tile_type = .LEDGE_DOWN ∨ tile_type = .LEDGE_LEFT ∨ tile_type = .LEDGE_RIGHT then
    match direction with
    | some d => if d ≠ "" then can_traverse_ledge tile_type d else false
    | none => false
  else
    let hms := upperHMs hms_available
    if tile_type = .WATER then "SURF" ∈ hms
    else if tile_type = .CUT_TREE then "CUT" ∈ hms
    else if tile_type = .STRENGTH_BOULDER then "STRENGTH" ∈ hms
    else true

/-! ## trainer_vision.py -/

/-- A raw trainer entry from map JSON, as consumed by `Trainer.from_dict`;
absent dict keys are `none`. The JSON key `"class"` is modelled by `cls`. -/
structure TrainerDict where
  trainer_id : Option String
  x : Option ℤ
  y : Option ℤ
  facing : Option String
  vision_range : Option ℤ
  cls : Option String
  team_index : Option ℤ
deriving DecidableEq

/-- `DIRECTION_VECTORS` dict. -/
def DIRECTION_VECTORS : String → Option (ℤ × ℤ)
  | "UP" => some (0, -1)
  | "DOWN" => some (0, 1)
  | "LEFT" => some (-1, 0)
  | "RIGHT" => some (1, 0)
  | _ => none

/-- `Trainer` dataclass. -/
structure Trainer where
  trainer_id : String
  x : ℤ
  y : ℤ
  facing : String
  vision_range : ℤ
  trainer_class : String
  team_index : ℤ
deriving DecidableEq

/-- `Trainer.from_dict(data, index=0)`. -/
def Trainer.from_dict (data : TrainerDict) (index : ℕ) : Trainer :=
  let trainer_id := data.trainer_id.getD ("trainer_" ++ toString index)
  let facing0 := pyUpper (data.facing.getD "DOWN")
  let facing := if (DIRECTION_VECTORS facing0).isSome then facing0 else "DOWN"
  { trainer_id := trainer_id
    x := data.x.getD 0
    y := data.y.getD 0
    facing := facing
    vision_range := data.vision_range.getD 4
    trainer_class := data.cls.getD ""
    team_index := data.team_index.getD 0 }

/-- The walking loop of `get_vision_tiles`: step `(dx,dy)` at a time, breaking
when `collision_check` reports the next tile blocked, yielding each tile. -/
def visionWalk (dx dy : ℤ) (cc : Option (ℤ → ℤ → Bool)) :
    ℕ → ℤ → ℤ → List (ℤ × ℤ)
  | 0, _, _ => []
  | n + 1, x, y =>
    let x' := x + dx
    let y' := y + dy
    if (cc.getD fun _ _ => false) x' y' then []
    else (x', y') :: visionWalk dx dy cc n x' y'

/-- `get_vision_tiles(trainer, collision_check=None)`, collected into a list.
`range(vision_range)` performs `max(vision_range, 0)` iterations. -/
def get_vision_tiles (trainer : Trainer) (cc : Option (ℤ → ℤ → Bool)) :
    List (ℤ × ℤ) :=
  match DIRECTION_VECTORS trainer.facing with
  | none => []
  | some (dx, dy) => visionWalk dx dy cc trainer.vision_range.toNat trainer.x trainer.y

/-- The accumulation loop of `calculate_vision_zone`: bounds checks `break`
out of the loop (they do not merely skip the tile). -/
def zoneAux (width height : ℤ) : List (ℤ × ℤ) → List (ℤ × ℤ) → List (ℤ × ℤ)
  | [], acc => acc
  | p :: rest, acc =>
    if width > 0 ∧ (p.1 < 0 ∨ p.1 ≥ width) then acc
    else if height > 0 ∧ (p.2 < 0 ∨ p.2 ≥ height) then acc
    else zoneAux width height rest (pyInsert acc p)

/-- `calculate_vision_zone(trainer, width=0, height=0, collision_check=None)`. -/
def calculate_vision_zone (trainer : Trainer) (width height : ℤ)
    (cc : Option (ℤ → ℤ → Bool)) : List (ℤ × ℤ) :=
  zoneAux width height (get_vision_tiles trainer cc) []

/-- The indexed loop of `get_all_trainer_zones` (`enumerate(trainers)`),
skipping defeated trainers and accumulating the union of their zones. -/
def gatzAux (defeated : List String) (width height : ℤ)
    (cc : Option (ℤ → ℤ → Bool)) : List TrainerDict → ℕ → List (ℤ × ℤ)
  | [], _ => []
  | d :: rest, i =>
    let trainer := Trainer.from_dict d i
    if trainer.trainer_id ∈ defeated then gatzAux defeated width height cc rest (i + 1)
    else pyUnion (calculate_vision_zone trainer width height cc)
      (gatzAux defeated width height cc rest (i + 1))

/-- `get_all_trainer_zones(trainers, defeated_trainers=None, width=0, height=0,
collision_check=None)`. `defeated_trainers or set()` is the identity on sets
(an empty set is falsy and is replaced by a fresh empty set). -/
def get_all_trainer_zones (trainers : List TrainerDict)
    (defeated_trainers : Option (List String)) (width height : ℤ)
    (cc : Option (ℤ → ℤ → Bool)) : List (ℤ × ℤ) :=
  gatzAux (defeated_trainers.getD []) width height cc trainers 0

/-! ## graph.py -/

/-- `Node` dataclass (frozen): a tile position. -/
structure Node where
  x : ℤ
  y : ℤ
deriving DecidableEq

/-- `Edge` dataclass. -/
structure Edge where
  destination : Node
  cost : ℚ
  direction : String
  requires_hm : Option String
deriving DecidableEq

/-- One entry of a map's `"connections"` table (a JSON object); absent keys
are `none`. -/
structure ConnectionData where
  map : Option String
  offset : Option ℤ
deriving DecidableEq

/-- One entry of a map's `"warps"` array. -/
structure WarpData where
  x : Option ℤ
  y : Option ℤ
  destination_map : Option String
  destination_warp_id : Option ℤ
deriving DecidableEq

/-- The parsed JSON of one map file, restricted to the keys the pathfinding
core reads; absent keys are `none` / `[]`. `connections` keeps the JSON
object's insertion order as an association list. -/
structure MapJson where
  width : Option ℤ
  height : Option ℤ
  tileset : Option String
  connections : List (String × ConnectionData)
  warps : List WarpData
  trainers : List TrainerDict
  walkable_tiles : List ℤ
  grass_tile : Option ℤ
deriving DecidableEq

/-- The maps data directory: file stem ↦ parsed JSON. -/
def MapStore := List (String × MapJson)
deriving DecidableEq

/-- First-match association-list lookup, the model of Python dict lookup
(dict assignment is modelled by consing, so the freshest binding wins). -/
def alookup {α β : Type} [DecidableEq α] : List (α × β) → α → Option β
  | [], _ => none
  | (k, v) :: rest, a => if a = k then some v else alookup rest a

/-- Association-list update with dict-assignment semantics: overwrite the
first binding of the key if present, else append a new binding. -/
def aset {α β : Type} [DecidableEq α] : List (α × β) → α → β → List (α × β)
  | [], k, v => [(k, v)]
  | (k', v') :: rest, k, v =>
    if k = k' then (k, v) :: rest else (k', v') :: aset rest k v

/-- `MapGraph`: `map_id`, the loaded JSON (`none` when the file is missing,
so that every `_data.get` falls back to its default), and the mutable
trainer-zones set (empty after `__init__`). -/
structure MapGraph where
  map_id : String
  data : Option MapJson
  trainer_zones : List (ℤ × ℤ)
deriving DecidableEq

/-- `MapGraph.__init__` / `_load_map_data`: look up `map_id` in the maps
directory, retrying with underscores stripped; a double miss leaves the
data empty. -/
def MapGraph.load (store : MapStore) (map_id : String) : MapGraph :=
  let d :=
    match alookup store map_id with
    | some j => some j
    | none => alookup store (String.mk (map_id.data.filter fun c => c ≠ '_'))
  ⟨map_id, d, []⟩

/-- `width` property: `self._data.get("width", 0)`. -/
def MapGraph.width (g : MapGraph) : ℤ :=
  (g.data.bind fun j => j.width).getD 0

/-- `height` property: `self._data.get("height", 0)`. -/
def MapGraph.height (g : MapGraph) : ℤ :=
  (g.data.bind fun j => j.height).getD 0

/-- `connections` property: `self._data.get("connections", {})`. -/
def MapGraph.connections (g : MapGraph) : List (String × ConnectionData) :=
  (g.data.map fun j => j.connections).getD []

/-- `warps` property: `self._data.get("warps", [])`. -/
def MapGraph.warps (g : MapGraph) : List WarpData :=
  (g.data.map fun j => j.warps).getD []

/-- `trainers` property: `self._data.get("trainers", [])`. -/
def MapGraph.trainers (g : MapGraph) : List TrainerDict :=
  (g.data.map fun j => j.trainers).getD []

/-- `set_trainer_zones(zones)` — the one mutation of a loaded graph. -/
def MapGraph.set_trainer_zones (g : MapGraph) (zones : List (ℤ × ℤ)) : MapGraph :=
  { g with trainer_zones := zones }

/-- `in_bounds(x, y)`. -/
def MapGraph.in_bounds (g : MapGraph) (x y : ℤ) : Bool :=
  0 ≤ x ∧ x < g.width ∧ 0 ≤ y ∧ y < g.height

/-- `get_tile_type(x, y)`: out of bounds ⇒ `BLOCKED`; in a trainer zone ⇒
`TRAINER_VISION`; otherwise `WALKABLE` (the source has no per-tile grid and
conservatively treats every other in-bounds tile as walkable). -/
def MapGraph.get_tile_type (g : MapGraph) (x y : ℤ) : TileType :=
  if ¬ g.in_bounds x y then .BLOCKED
  else if (x, y) ∈ g.trainer_zones then .TRAINER_VISION
  else .WALKABLE

/-- `MapGraph.DIRECTIONS`, in source order. -/
def DIRECTIONS : List (ℤ × ℤ × String) :=
  [(0, -1, "UP"), (0, 1, "DOWN"), (-1, 0, "LEFT"), (1, 0, "RIGHT")]

/-- `neighbors(node, hms_available=None, weights=None)`, collected into a
list (the source yields lazily; A* always drains the generator). -/
def MapGraph.neighbors (g : MapGraph) (node : Node)
    (hms_available : Option (List String)) (weights : Option TileWeights) :
    List Edge :=
  DIRECTIONS.filterMap fun d =>
    let nx := node.x + d.1
    let ny := node.y + d.2.1
    let direction := d.2.2
    if ¬ g.in_bounds nx ny then none
    else
      let tile_type := g.get_tile_type nx ny
      if ¬ is_passable tile_type (some direction) hms_available then none
      else
        match get_tile_weight tile_type hms_available weights with
        | none => none
        | some cost =>
          let requires_hm : Option String :=
            if tile_type = .WATER then some "SURF"
            else if tile_type = .CUT_TREE then some "CUT"
            else if tile_type = .STRENGTH_BOULDER then some "STRENGTH"
            else none
          some ⟨⟨nx, ny⟩, cost, direction, requires_hm⟩

/-! ## astar.py -/

/-- `PathResult` dataclass. -/
structure PathResult where
  success : Bool
  path : List Node
  moves : List String
  total_cost : ℚ
  hms_required : List String
  nodes_explored : ℕ
deriving DecidableEq

/-- A `PathResult` with every non-`success` field at its dataclass default. -/
def PathResult.failure (nodes_explored : ℕ) : PathResult :=
  ⟨false, [], [], 0, [], nodes_explored⟩

/-- `heuristic(a, b)`: Manhattan distance. -/
def heuristic (a b : Node) : ℚ :=
  ((a.x - b.x).natAbs + (a.y - b.y).natAbs : ℕ)

/-- The `while current in came_from` loop of `reconstruct_path`, building the
start-to-goal list directly by prepending (the source appends then reverses;
the result is the same).  The fuel bounds the number of lookups by the number
of bindings, which is exact whenever the `came_from` chain is acyclic — and
every chain the source builds is acyclic on runs that return. -/
def reconstructAux (came_from : List (Node × Node)) :
    ℕ → Node → List Node → List Node
  | 0, _, acc => acc
  | n + 1, current, acc =>
    match alookup came_from current with
    | none => acc
    | some prev => reconstructAux came_from n prev (prev :: acc)

/-- `reconstruct_path(came_from, current)`. -/
def reconstruct_path (came_from : List (Node × Node)) (current : Node) :
    List Node :=
  reconstructAux came_from (came_from.length + 1) current [current]

/-- The per-pair body of `path_to_moves`: at most one direction per
consecutive pair (none when the two nodes coincide). -/
def moveName (prev curr : Node) : List String :=
  let dx := curr.x - prev.x
  let dy := curr.y - prev.y
  if dy < 0 then ["UP"]
  else if dy > 0 then ["DOWN"]
  else if dx < 0 then ["LEFT"]
  else if dx > 0 then ["RIGHT"]
  else []

/-- `path_to_moves(path)`. -/
def path_to_moves : List Node → List String
  | [] => []
  | [_] => []
  | a :: b :: rest => moveName a b ++ path_to_moves (b :: rest)

/-- The mutable state of the `astar` main loop. -/
structure AState where
  open_set : List (ℚ × ℕ × Node)
  open_lookup : List Node
  counter : ℕ
  came_from : List (Node × Node)
  g_score : List (Node × ℚ)
  f_score : List (Node × ℚ)
  hm_used_at : List (Node × String)
deriving DecidableEq

/-- Strict `<` on heap entries `(f_score, counter, node)`; counters are
pairwise distinct, so the node component never decides a comparison. -/
def heapLt (a b : ℚ × ℕ × Node) : Bool :=
  a.1 < b.1 ∨ (a.1 = b.1 ∧ a.2.1 < b.2.1)

/-- Select and remove the minimum heap entry (the observable behaviour of
`heappop`; the left-over entries' order is irrelevant because every later pop
again selects the unique minimum). -/
def popMinAux : (ℚ × ℕ × Node) → List (ℚ × ℕ × Node) →
    (ℚ × ℕ × Node) × List (ℚ × ℕ × Node)
  | best, [] => (best, [])
  | best, e :: rest =>
    if heapLt e best then
      let r := popMinAux e rest
      (r.1, best :: r.2)
    else
      let r := popMinAux best rest
      (r.1, e :: r.2)

/-- `heappop` on the modelled heap, `none` when it is empty. -/
def popMin : List (ℚ × ℕ × Node) →
    Option ((ℚ × ℕ × Node) × List (ℚ × ℕ × Node))
  | [] => none
  | e :: rest => some (popMinAux e rest)

/-- One step of the `for edge in graph.neighbors(...)` relaxation loop of
`astar`. -/
def relaxEdge (goal current : Node) (st : AState) (edge : Edge) : AState :=
  let neighbor := edge.destination
  let tentative_g := (alookup st.g_score current).getD 0 + edge.cost
  let better :=
    match alookup st.g_score neighbor with
    | none => true
    | some v => tentative_g < v
  if better then
    let f := tentative_g + heuristic neighbor goal
    let st1 := { st with
      came_from := (neighbor, current) :: st.came_from
      g_score := (neighbor, tentative_g) :: st.g_score
      f_score := (neighbor, f) :: st.f_score }
    let st2 :=
      match edge.requires_hm with
      | some hm => { st1 with hm_used_at := (neighbor, hm) :: st1.hm_used_at }
      | none => st1
    if neighbor ∈ st2.open_lookup then st2
    else { st2 with
      counter := st2.counter + 1
      open_set := (f, st2.counter + 1, neighbor) :: st2.open_set
      open_lookup := neighbor :: st2.open_lookup }
  else st

/-- The full relaxation loop of `astar`. -/
def expand (g : MapGraph) (hms_available : Option (List String))
    (weights : Option TileWeights) (goal current : Node) (st : AState) : AState :=
  (g.neighbors current hms_available weights).foldl (relaxEdge goal current) st

/-- `hms_used`: the set of HMs recorded along the final path (a Python set
turned into a list; insertion-ordered first occurrences model the iteration,
whose order is unspecified in Python — on the source graph the list is
always empty, so the order never matters). -/
def collectHMs (hm_used_at : List (Node × String)) (path : List Node) :
    List String :=
  (path.filterMap (alookup hm_used_at)).dedup

/-- The `current == goal` success exit of `astar`. -/
def successResult (st : AState) (current : Node) (iterations : ℕ) : PathResult :=
  let path := reconstruct_path st.came_from current
  { success := true
    path := path
    moves := path_to_moves path
    total_cost := (alookup st.g_score current).getD 0
    hms_required := collectHMs st.hm_used_at path
    nodes_explored := iterations }

/-- The `while open_set and iterations < max_iterations` loop.  The fuel is
the number of iterations the guard still allows (`max_iterations -
iterations`), so fuel exhaustion is exactly the guard's cap exit, and
`iterations` counts completed iterations. -/
def astarLoop (g : MapGraph) (hms_available : Option (List String))
    (weights : Option TileWeights) (goal : Node) :
    ℕ → ℕ → AState → PathResult
  | 0, iterations, _ => PathResult.failure iterations
  | fuel + 1, iterations, st =>
    match popMin st.open_set with
    | none => PathResult.failure iterations
    | some (entry, rest) =>
      let current := entry.2.2
      let st1 : AState := { st with
        open_set := rest
        open_lookup := st.open_lookup.filter fun n => n ≠ current }
      if current = goal then successResult st1 current (iterations + 1)
      else
        astarLoop g hms_available weights goal fuel (iterations + 1)
          (expand g hms_available weights goal current st1)

/-- `astar(graph, start, goal, hms_available=None, weights=None,
max_iterations=10000)`; the default cap is passed explicitly by callers. -/
def astar (g : MapGraph) (start goal : Node)
    (hms_available : Option (List String)) (weights : Option TileWeights)
    (max_iterations : ℕ) : PathResult :=
  if ¬ g.in_bounds start.x start.y then PathResult.failure 0
  else if ¬ g.in_bounds goal.x goal.y then PathResult.failure 0
  else
    astarLoop g hms_available weights goal max_iterations 0
      { open_set := [(0, 0, start)]
        open_lookup := [start]
        counter := 0
        came_from := []
        g_score := [(start, 0)]
        f_score := [(start, heuristic start goal)]
        hm_used_at := [] }

/-! ## cross_map.py -/

/-- `MapTransition` dataclass. -/
structure MapTransition where
  from_map : String
  from_pos : ℤ × ℤ
  to_map : String
  to_pos : ℤ × ℤ
  transition_type : String
deriving DecidableEq

/-- `CrossMapPath` dataclass. -/
structure CrossMapPath where
  success : Bool
  segments : List (String × List String)
  maps_traversed : List String
  total_moves : ℕ
  hms_required : List String
  transitions : List MapTransition
deriving DecidableEq

/-- `CrossMapPath(success=False)`: every other field at its dataclass default. -/
def CrossMapPath.failure : CrossMapPath :=
  ⟨false, [], [], 0, [], []⟩

/-- The state of a `CrossMapRouter`: the maps directory it reads from and its
`_map_cache` dict.  (`_map_index` is loaded but never read by any routing
call, so it is not modelled.)  Every state-changing operation returns the new
state; Python's in-place mutation of a cached `MapGraph` through an alias is
modelled by writing the changed graph back to its cache key. -/
structure RouterState where
  store : MapStore
  map_cache : List (String × MapGraph)
deriving DecidableEq

/-- `_normalize_map_id`: `map_id.replace("_", "").upper()`. -/
def normalize_map_id (map_id : String) : String :=
  pyUpper (String.mk (map_id.data.filter fun c => c ≠ '_'))

/-- `_get_map(map_id)`: normalize, return the cached graph or load and cache
it. -/
def get_map (st : RouterState) (map_id : String) : MapGraph × RouterState :=
  let norm_id := normalize_map_id map_id
  match alookup st.map_cache norm_id with
  | some g => (g, st)
  | none =>
    let g := MapGraph.load st.store norm_id
    (g, ⟨st.store, aset st.map_cache norm_id g⟩)

/-- `_single_map_path(map_id, from_x, from_y, to_x, to_y, hms_available,
weights, defeated_trainers)`.  When trainer avoidance is active the computed
zones are stored into the cached graph (`graph.set_trainer_zones(zones)`
mutates the object the cache holds). -/
def single_map_path (st : RouterState) (map_id : String) (from_x from_y to_x to_y : ℤ)
    (hms_available : List String) (weights : TileWeights)
    (defeated_trainers : List String) : CrossMapPath × RouterState :=
  let pr := get_map st map_id
  let pr2 :=
    if weights.trainer_adjacent > 1 then
      let zones := get_all_trainer_zones pr.1.trainers (some defeated_trainers)
        pr.1.width pr.1.height none
      let g' := pr.1.set_trainer_zones zones
      (g', RouterState.mk pr.2.store (aset pr.2.map_cache (normalize_map_id map_id) g'))
    else pr
  let result := astar pr2.1 ⟨from_x, from_y⟩ ⟨to_x, to_y⟩ (some hms_available)
    (some weights) 10000
  if result.success then
    (⟨true, [(map_id, result.moves)], [map_id], result.moves.length,
      result.hms_required, []⟩, pr2.2)
  else (CrossMapPath.failure, pr2.2)

/-- `if dest_map:` — an empty string is falsy. -/
def pyTruthyStr (s : String) : Bool :=
  s ≠ ""

/-- The `connected` set built for one BFS node: normalized connection
targets, then normalized warp destinations, empty ids dropped.  Python
iterates this set in unspecified order; the model iterates in insertion
order (no claim in this development depends on the order). -/
def connectedMaps (graph : MapGraph) : List String :=
  let conns := graph.connections.foldl
    (fun acc dc =>
      let dest_map := normalize_map_id (dc.2.map.getD "")
      if pyTruthyStr dest_map then pyInsert acc dest_map else acc)
    []
  graph.warps.foldl
    (fun acc w =>
      let dest_map := normalize_map_id (w.destination_map.getD "")
      if pyTruthyStr dest_map then pyInsert acc dest_map else acc)
    conns

/-- Fuel that the BFS of `_find_map_sequence` can never exhaust: every
iteration pops an enqueued entry; each map id is enqueued at most once (the
`visited` guard), so each map is popped — and its `connected` set scanned —
at most once; and every enqueued id beyond the first is a connection or warp
mention of some popped map's graph, which is either a graph the cache
already held or one freshly loaded from the store.  Hence the number of loop
entries is at most `2 + Σ mentions(store) + Σ mentions(initial cache)`. -/
def bfsFuel (st : RouterState) : ℕ :=
  2 + st.store.foldl (fun acc e => acc + e.2.connections.length + e.2.warps.length) 0
    + st.map_cache.foldl
        (fun acc e => acc + e.2.connections.length + e.2.warps.length) 0

/-- The `while queue:` loop of `_find_map_sequence` (deque: pop at the left,
append at the right). -/
def bfsLoop (to_map : String) :
    ℕ → RouterState → List (String × List String) → List String →
    List String × RouterState
  | 0, st, _, _ => ([], st)
  | fuel + 1, st, queue, visited =>
    match queue with
    | [] => ([], st)
    | (current_map, path) :: rest =>
      if current_map = to_map then (path, st)
      else
        let pr := get_map st current_map
        let step := (connectedMaps pr.1).foldl
          (fun (acc : List (String × List String) × List String) next_map =>
            if next_map ∈ acc.2 then acc
            else (acc.1 ++ [(next_map, path ++ [next_map])], acc.2 ++ [next_map]))
          (rest, visited)
        bfsLoop to_map fuel pr.2 step.1 step.2

/-- `_find_map_sequence(from_map, to_map, hms_available)`; the
`hms_available` parameter exists in the source but is never used by it. -/
def find_map_sequence (st : RouterState) (from_map to_map : String)
    (hms_available : List String) : List String × RouterState :=
  let _ := hms_available
  bfsLoop to_map (bfsFuel st) st [(from_map, [from_map])] [from_map]

/-- The `if direction == "NORTH" ... elif ...` chain of `_find_exit_to`; a
direction key that is none of the four falls through and the loop continues. -/
def exitEdgeFor (graph : MapGraph) (direction : String) : Option (ℤ × ℤ) :=
  if direction = "NORTH" then some (graph.width.fdiv 2, 0)
  else if direction = "SOUTH" then some (graph.width.fdiv 2, graph.height - 1)
  else if direction = "EAST" then some (graph.width - 1, graph.height.fdiv 2)
  else if direction = "WEST" then some (0, graph.height.fdiv 2)
  else none

/-- `_find_exit_to(graph, target_map)`: first matching warp, then first
matching connection with a cardinal direction. -/
def find_exit_to (graph : MapGraph) (target_map : String) : Option (ℤ × ℤ) :=
  let target_norm := normalize_map_id target_map
  match graph.warps.findSome? (fun w =>
      if normalize_map_id (w.destination_map.getD "") = target_norm then
        some (w.x.getD 0, w.y.getD 0)
      else none) with
  | some p => some p
  | none =>
    graph.connections.findSome? fun dc =>
      if normalize_map_id (dc.2.map.getD "") = target_norm then
        exitEdgeFor graph dc.1
      else none

/-- The direction chain of `_find_entry_from`. -/
def entryEdgeFor (graph : MapGraph) (direction : String) (offset exit_x exit_y : ℤ) :
    Option (ℤ × ℤ) :=
  if direction = "NORTH" then some (exit_x + offset, graph.height - 1)
  else if direction = "SOUTH" then some (exit_x + offset, 0)
  else if direction = "EAST" then some (0, exit_y + offset)
  else if direction = "WEST" then some (graph.width - 1, exit_y + offset)
  else none

/-- `_find_entry_from(graph, from_map, exit_x, exit_y)`; the warp fallback
(`graph.width // 2, graph.height // 2`) means the result is never `None`. -/
def find_entry_from (graph : MapGraph) (from_map : String) (exit_x exit_y : ℤ) :
    Option (ℤ × ℤ) :=
  let from_norm := normalize_map_id from_map
  match graph.connections.findSome? (fun dc =>
      if normalize_map_id (dc.2.map.getD "") = from_norm then
        entryEdgeFor graph dc.1 (dc.2.offset.getD 0) exit_x exit_y
      else none) with
  | some p => some p
  | none => some (graph.width.fdiv 2, graph.height.fdiv 2)

/-- The `for i, map_id in enumerate(map_sequence)` loop of
`_build_multi_map_path`.  `traversed` is the prefix of the sequence already
processed (`map_sequence[:i]`), so failure exits report
`map_sequence[:i+1]` and the final success reports the whole sequence.
A present `entry_pos` is a two-element tuple, which is truthy even at
`(0, 0)`, so `if entry_pos:` is the `some` case. -/
def buildLoop (hms_available : List String) (weights : TileWeights)
    (defeated_trainers : List String) (to_x to_y : Option ℤ) :
    RouterState → List String → ℤ → ℤ → List (String × List String) →
    List MapTransition → List String → ℕ → List String →
    CrossMapPath × RouterState
  | st, [], _, _, segments, transitions, all_hms, total_moves, traversed =>
    (⟨true, segments, traversed, total_moves, all_hms, transitions⟩, st)
  | st, map_id :: rest, current_x, current_y, segments, transitions, all_hms,
      total_moves, traversed =>
    let pr := get_map st map_id
    let pr2 :=
      if weights.trainer_adjacent > 1 then
        let zones := get_all_trainer_zones pr.1.trainers (some defeated_trainers)
          pr.1.width pr.1.height none
        let g' := pr.1.set_trainer_zones zones
        (g', RouterState.mk pr.2.store (aset pr.2.map_cache (normalize_map_id map_id) g'))
      else pr
    let graph := pr2.1
    let st1 := pr2.2
    let goalOpt : Option (ℤ × ℤ) :=
      match rest with
      | [] => some (to_x.getD (graph.width.fdiv 2), to_y.getD (graph.height.fdiv 2))
      | next_map :: _ => find_exit_to graph next_map
    match goalOpt with
    | none => (⟨false, segments, traversed ++ [map_id], 0, [], []⟩, st1)
    | some goal =>
      let result := astar graph ⟨current_x, current_y⟩ ⟨goal.1, goal.2⟩
        (some hms_available) (some weights) 10000
      if result.success then
        let segments1 := segments ++ [(map_id, result.moves)]
        let all_hms1 := pyUnion all_hms result.hms_required
        let total1 := total_moves + result.moves.length
        match rest with
        | [] =>
          buildLoop hms_available weights defeated_trainers to_x to_y st1 rest
            current_x current_y segments1 transitions all_hms1 total1
            (traversed ++ [map_id])
        | next_map :: _ =>
          let prn := get_map st1 next_map
          match find_entry_from prn.1 map_id goal.1 goal.2 with
          | some entry =>
            buildLoop hms_available weights defeated_trainers to_x to_y prn.2 rest
              entry.1 entry.2 segments1
              (transitions ++ [⟨map_id, (goal.1, goal.2), next_map, entry, "connection"⟩])
              all_hms1 total1 (traversed ++ [map_id])
          | none =>
            let prn2 := get_map prn.2 next_map
            buildLoop hms_available weights defeated_trainers to_x to_y prn2.2 rest
              (prn2.1.width.fdiv 2) (prn2.1.height.fdiv 2) segments1 transitions
              all_hms1 total1 (traversed ++ [map_id])
      else (⟨false, segments, traversed ++ [map_id], 0, [], []⟩, st1)

/-- `_build_multi_map_path(map_sequence, from_x, from_y, to_x, to_y,
hms_available, weights, defeated_trainers)`. -/
def build_multi_map_path (st : RouterState) (map_sequence : List String)
    (from_x from_y : ℤ) (to_x to_y : Option ℤ) (hms_available : List String)
    (weights : TileWeights) (defeated_trainers : List String) :
    CrossMapPath × RouterState :=
  buildLoop hms_available weights defeated_trainers to_x to_y st map_sequence
    from_x from_y [] [] [] 0 []

/-- `to_x or from_x`: Python numeric truthiness — both `None` and `0` fall
back to the default. -/
def pyOrInt (a : Option ℤ) (b : ℤ) : ℤ :=
  match a with
  | none => b
  | some v => if v = 0 then b else v

/-- `CrossMapRouter.find_path(from_map, from_x, from_y, to_map, to_x=None,
to_y=None, hms_available=None, weights=None, defeated_trainers=None)`. -/
def CrossMapRouter.find_path (st : RouterState) (from_map : String)
    (from_x from_y : ℤ) (to_map : String) (to_x to_y : Option ℤ)
    (hms_available : Option (List String)) (weights : Option TileWeights)
    (defeated_trainers : Option (List String)) : CrossMapPath × RouterState :=
  let hms := hms_available.getD []
  let w := weights.getD TileWeights.default
  let defeated := defeated_trainers.getD []
  let fm := normalize_map_id from_map
  let tm := normalize_map_id to_map
  if fm = tm then
    single_map_path st fm from_x from_y (pyOrInt to_x from_x) (pyOrInt to_y from_y)
      hms w defeated
  else
    let pr := find_map_sequence st fm tm hms
    if pr.1 = [] then (CrossMapPath.failure, pr.2)
    else build_multi_map_path pr.2 pr.1 from_x from_y to_x to_y hms w defeated

/-! ## `__init__.py` — the public facade -/

/-- The weight policy the facade builds from its two preference booleans:
start from the dataclass defaults, set `grass := 5` only when `avoid_grass`,
and set `trainer_adjacent` to `100` or `1`. -/
def facadeWeights (avoid_grass avoid_trainers : Bool) : TileWeights :=
  let w := TileWeights.default
  let w1 := if avoid_grass then { w with grass := 5 } else w
  if avoid_trainers then { w1 with trainer_adjacent := 100 }
  else { w1 with trainer_adjacent := 1 }

/-- Module-level `find_path(...)` from `src/pathfinding/__init__.py`: build
the weights from the booleans, create a fresh `CrossMapRouter()` (empty
cache) and delegate. -/
def find_path (store : MapStore) (from_map : String) (from_x from_y : ℤ)
    (to_map : String) (to_x to_y : Option ℤ) (hms_available : Option (List String))
    (avoid_grass avoid_trainers : Bool) (defeated_trainers : Option (List String)) :
    CrossMapPath :=
  (CrossMapRouter.find_path ⟨store, []⟩ from_map from_x from_y to_map to_x to_y
    hms_available (some (facadeWeights avoid_grass avoid_trainers))
    defeated_trainers).1

/-- Decidable test for the three one-way ledge classes. -/
def isLedgeB (t : TileType) : Bool :=
  t = .LEDGE_DOWN ∨ t = .LEDGE_LEFT ∨ t = .LEDGE_RIGHT

/-- Modelled from the spec: the arrow direction of each one-way ledge class
("impossible unless move_direction matches the ledge's arrow"); `""` for
non-ledge classes. -/
def specLedgeArrow : TileType → String
  | .LEDGE_DOWN => "DOWN"
  | .LEDGE_LEFT => "LEFT"
  | .LEDGE_RIGHT => "RIGHT"
  | _ => ""

/-- The frame invariant of a routing call, relative to a baseline router
state `st0`: the store is untouched, no cache entry disappears, and every
cached graph keeps the `map_id` and `data` of the graph the baseline held at
that key (or of the freshly loaded graph, for keys the baseline had not yet
cached) — only the mutable trainer-zones field may differ. -/
def cachePreserved (st0 st : RouterState) : Prop :=
  st.store = st0.store ∧
  (∀ mid, (alookup st0.map_cache mid).isSome → (alookup st.map_cache mid).isSome) ∧
  ∀ mid g', alookup st.map_cache mid = some g' →
    g'.map_id = ((alookup st0.map_cache mid).getD (MapGraph.load st0.store mid)).map_id ∧
    g'.data = ((alookup st0.map_cache mid).getD (MapGraph.load st0.store mid)).data

/-! ## Concrete fixtures used by witnesses and counterexamples -/

/-- A plain 5×5 map with no connections, warps or trainers. -/
def jPlain : MapJson :=
  ⟨some 5, some 5, none, [], [], [], [], none⟩

/-- A trainer at `(2,2)` facing `DOWN` (all other keys absent). -/
def trainerDown : TrainerDict :=
  ⟨none, some 2, some 2, some "DOWN", none, none, none⟩

/-- A 5×5 map holding `trainerDown`. -/
def jTrainer : MapJson :=
  ⟨some 5, some 5, none, [], [], [trainerDown], [], none⟩

/-- Two disconnected maps. -/
def storeAB : MapStore :=
  [("A", jPlain), ("B", jPlain)]

/-- A store with the single trainer map. -/
def storeT : MapStore :=
  [("A", jTrainer)]

/-- A router whose cache already holds map `"A"` as loaded (trainer zones
empty). -/
def stT : RouterState :=
  ⟨storeT, [("A", MapGraph.load storeT "A")]⟩

/-- The plain 5×5 map as a loaded graph. -/
def gPlain : MapGraph :=
  MapGraph.load [("A", jPlain)] "A"

/-! ## Helper lemmas -/

theorem mem_pyInsert {α : Type} [DecidableEq α] (l : List α) (a x : α) :
    x ∈ pyInsert l a ↔ x ∈ l ∨ x = a := by
  unfold pyInsert
  by_cases h : a ∈ l
  · simp only [if_pos h]
    constructor
    · exact Or.inl
    · rintro (hx | rfl) <;> [exact hx; exact h]
  · simp [if_neg h]

theorem mem_pyUnion {α : Type} [DecidableEq α] (l m : List α) (x : α) :
    x ∈ pyUnion l m ↔ x ∈ l ∨ x ∈ m := by
  induction m generalizing l with
  | nil => simp [pyUnion]
  | cons b m ih =>
    show x ∈ pyUnion (pyInsert l b) m ↔ _
    rw [ih, mem_pyInsert]
    simp only [List.mem_cons]
    tauto

theorem str_beq_comm (a b : String) : (a == b) = (b == a) := by
  by_cases h : a = b
  · subst h; rfl
  · rw [beq_eq_false_iff_ne.mpr h, beq_eq_false_iff_ne.mpr (Ne.symm h)]

/-! ## C1 -/

/-- C1 (counterexample): with `avoid_grass=False` (and `avoid_trainers=True`)
the facade's policy keeps the dataclass default grass weight `3.0`; the claim
that it is set to `1.0` is false.  The last conjunct pins down that this very
policy is the one the facade hands to the region router. -/
theorem C1_counterexample :
    (facadeWeights false true).grass = 3 ∧
    ¬ (facadeWeights false true).grass = 1 ∧
    find_path storeAB "A" 1 1 "A" none none none false true none =
      (CrossMapRouter.find_path ⟨storeAB, []⟩ "A" 1 1 "A" none none none
        (some (facadeWeights false true)) none).1 := by
  refine ⟨rfl, ?_, rfl⟩
  intro h
  simp [facadeWeights, TileWeights.default] at h

/-- C1 (amended): the facade passes `facadeWeights avoid_grass avoid_trainers`
to the region router, and that policy has `grass = 5.0` when `avoid_grass`
else the default `3.0` (not `1.0`), and `trainer_adjacent = 100` when
`avoid_trainers` else `1.0`; all other weights keep their defaults. -/
theorem C1_facade_policy (store : MapStore) (from_map : String) (from_x from_y : ℤ)
    (to_map : String) (to_x to_y : Option ℤ) (hms_available : Option (List String))
    (avoid_grass avoid_trainers : Bool) (defeated_trainers : Option (List String)) :
    (facadeWeights avoid_grass avoid_trainers).grass = (if avoid_grass then 5 else 3) ∧
    (facadeWeights avoid_grass avoid_trainers).trainer_adjacent =
      (if avoid_trainers then 100 else 1) ∧
    (facadeWeights avoid_grass avoid_trainers).walkable = 1 ∧
    (facadeWeights avoid_grass avoid_trainers).water = 3/2 ∧
    (facadeWeights avoid_grass avoid_trainers).cut_tree = 2 ∧
    (facadeWeights avoid_grass avoid_trainers).strength_boulder = 3 ∧
    find_path store from_map from_x from_y to_map to_x to_y hms_available
        avoid_grass avoid_trainers defeated_trainers =
      (CrossMapRouter.find_path ⟨store, []⟩ from_map from_x from_y to_map to_x to_y
        hms_available (some (facadeWeights avoid_grass avoid_trainers))
        defeated_trainers).1 := by
  cases avoid_grass <;> cases avoid_trainers <;>
    exact ⟨rfl, rfl, rfl, rfl, rfl, rfl, rfl⟩

/-! ## C5 -/

/-- C5: `get_tile_weight` gates HM terrain exactly: Water costs
`policy.water` iff `SURF` is available (else impossible, i.e. `none` = ∞),
CutObstacle costs `policy.cut_tree` iff `CUT`, and the strength boulder costs
`policy.strength_boulder` iff `STRENGTH`. -/
theorem C5_hm_gating (hms : List String) (w : TileWeights) :
    get_tile_weight .WATER (some hms) (some w) =
      (if "SURF" ∈ hms.map pyUpper then some w.water else none) ∧
    get_tile_weight .CUT_TREE (some hms) (some w) =
      (if "CUT" ∈ hms.map pyUpper then some w.cut_tree else none) ∧
    get_tile_weight .STRENGTH_BOULDER (some hms) (some w) =
      (if "STRENGTH" ∈ hms.map pyUpper then some w.strength_boulder else none) :=
  ⟨rfl, rfl, rfl⟩

/-! ## C3 -/

/-- The zones of undefeated trainers only shrink (membership-wise) when the
defeated set grows, at every loop index. -/
theorem gatzAux_antitone (width height : ℤ) (cc : Option (ℤ → ℤ → Bool))
    (D D' : List String) (hD : ∀ s, s ∈ D → s ∈ D') :
    ∀ (trainers : List TrainerDict) (i : ℕ) (p : ℤ × ℤ),
      p ∈ gatzAux D' width height cc trainers i →
      p ∈ gatzAux D width height cc trainers i := by
  intro trainers
  induction trainers with
  | nil => intro i p hp; exact hp
  | cons d rest ih =>
    intro i p hp
    unfold gatzAux at hp ⊢
    dsimp only at hp ⊢
    by_cases h' : (Trainer.from_dict d i).trainer_id ∈ D'
    · rw [if_pos h'] at hp
      by_cases h : (Trainer.from_dict d i).trainer_id ∈ D
      · rw [if_pos h]
        exact ih (i + 1) p hp
      · rw [if_neg h, mem_pyUnion]
        exact Or.inr (ih (i + 1) p hp)
    · rw [if_neg h'] at hp
      have h : (Trainer.from_dict d i).trainer_id ∉ D := fun hc => h' (hD _ hc)
      rw [mem_pyUnion] at hp
      rw [if_neg h, mem_pyUnion]
      exact hp.imp id (ih (i + 1) p)

/-- C3 (counterexample): strictness fails.  A trainer at `(0,0)` facing `UP`
on a 5×5 map projects an empty vision set (its first ray tile is already out
of bounds), so defeating it — its generated id is `"trainer_0"`, not in the
empty defeated set — leaves the vision set unchanged (both empty), not a
strict subset. -/
theorem C3_counterexample :
    (Trainer.from_dict ⟨none, some 0, some 0, some "UP", none, none, none⟩ 0).trainer_id
        = "trainer_0" ∧
    get_all_trainer_zones [⟨none, some 0, some 0, some "UP", none, none, none⟩]
        (some []) 5 5 none = [] ∧
    get_all_trainer_zones [⟨none, some 0, some 0, some "UP", none, none, none⟩]
        (some ["trainer_0"]) 5 5 none = [] := by
  refine ⟨by decide, by decide, by decide⟩

/-- C3 (amended): adding a defeated id never grows the vision set — the set
computed with `defeated = D ∪ {t}` is a subset (not necessarily strict) of
the one computed with `D`. -/
theorem C3_defeated_shrinks (trainers : List TrainerDict) (D : List String)
    (t : String) (width height : ℤ) (cc : Option (ℤ → ℤ → Bool)) (p : ℤ × ℤ)
    (hp : p ∈ get_all_trainer_zones trainers (some (t :: D)) width height cc) :
    p ∈ get_all_trainer_zones trainers (some D) width height cc :=
  gatzAux_antitone width height cc D (t :: D)
    (fun _ hs => List.mem_cons_of_mem t hs) trainers 0 p hp

/-- C3 (witness): a trainer facing `DOWN` at `(2,2)` projects `(2,3)`; that
tile is in the zone with an unrelated id defeated and in the zone with no id
defeated. -/
theorem C3_witness :
    (2, 3) ∈ get_all_trainer_zones [⟨none, some 2, some 2, some "DOWN", none, none, none⟩]
      (some []) 5 5 none :=
  C3_defeated_shrinks [⟨none, some 2, some 2, some "DOWN", none, none, none⟩]
    [] "ghost" 5 5 none (2, 3) (by decide)

/-! ## C2 -/

/-- C2 (counterexample): two maps with no connections or warps; the router's
result for `A → B` is the bare `CrossMapPath(success=False)`, whose
`maps_traversed` is empty — it does not contain the source map `"A"`. -/
theorem C2_counterexample :
    (CrossMapRouter.find_path ⟨storeAB, []⟩ "A" 0 0 "B" none none none none none).1 =
      CrossMapPath.failure ∧
    "A" ∉ (CrossMapRouter.find_path ⟨storeAB, []⟩
      "A" 0 0 "B" none none none none none).1.maps_traversed := by
  refine ⟨by decide, by decide⟩

/-- C2 (amended): when the source and destination maps differ and the region
BFS finds no connecting sequence, `find_path` returns
`CrossMapPath(success=False)` — in particular `maps_traversed` is the empty
list, not `[source]`. -/
theorem C2_no_sequence (st : RouterState) (from_map : String) (from_x from_y : ℤ)
    (to_map : String) (to_x to_y : Option ℤ) (hms_available : Option (List String))
    (weights : Option TileWeights) (defeated_trainers : Option (List String))
    (hdiff : normalize_map_id from_map ≠ normalize_map_id to_map)
    (hseq : (find_map_sequence st (normalize_map_id from_map)
      (normalize_map_id to_map) (hms_available.getD [])).1 = []) :
    (CrossMapRouter.find_path st from_map from_x from_y to_map to_x to_y
        hms_available weights defeated_trainers).1 = CrossMapPath.failure ∧
    (CrossMapRouter.find_path st from_map from_x from_y to_map to_x to_y
        hms_available weights defeated_trainers).1.maps_traversed = [] := by
  have h : (CrossMapRouter.find_path st from_map from_x from_y to_map to_x to_y
      hms_available weights defeated_trainers).1 = CrossMapPath.failure := by
    unfold CrossMapRouter.find_path
    simp only [if_neg hdiff, hseq, if_pos]
  exact ⟨h, by rw [h]; rfl⟩

/-- C2 (witness): the amended statement at the concrete disconnected pair. -/
theorem C2_witness :
    (CrossMapRouter.find_path ⟨storeAB, []⟩
      "X_A" 0 0 "B" none none none none none).1 = CrossMapPath.failure ∧
    (CrossMapRouter.find_path ⟨storeAB, []⟩
      "X_A" 0 0 "B" none none none none none).1.maps_traversed = [] :=
  C2_no_sequence ⟨storeAB, []⟩
    "X_A" 0 0 "B" none none none none none (by decide) (by decide)

/-! ## C10 -/

/-- C10: on a same-map query the destination defaults use numeric truthiness
(`to_x or from_x`): an explicit destination coordinate `0` is treated exactly
like an omitted one, and the goal actually searched is the start coordinate —
so column/row `0` cannot be targeted explicitly and an omitted destination
resolves to the start, not the map centre. -/
theorem C10_zero_destination (st : RouterState) (from_map : String)
    (from_x from_y : ℤ) (to_map : String) (to_y : Option ℤ)
    (hms_available : Option (List String)) (weights : Option TileWeights)
    (defeated_trainers : Option (List String))
    (hsame : normalize_map_id from_map = normalize_map_id to_map) :
    CrossMapRouter.find_path st from_map from_x from_y to_map (some 0) to_y
        hms_available weights defeated_trainers =
      CrossMapRouter.find_path st from_map from_x from_y to_map none to_y
        hms_available weights defeated_trainers ∧
    CrossMapRouter.find_path st from_map from_x from_y to_map (some 0) (some 0)
        hms_available weights defeated_trainers =
      single_map_path st (normalize_map_id from_map) from_x from_y from_x from_y
        (hms_available.getD []) (weights.getD TileWeights.default)
        (defeated_trainers.getD []) := by
  constructor
  · unfold CrossMapRouter.find_path
    simp only [if_pos hsame]
    rfl
  · unfold CrossMapRouter.find_path
    simp only [if_pos hsame]
    rfl

/-- C10 (witness): the statement at a concrete same-map query. -/
theorem C10_witness :
    CrossMapRouter.find_path ⟨[], []⟩ "A" 3 3 "A" (some 0) none none none none =
      CrossMapRouter.find_path ⟨[], []⟩ "A" 3 3 "A" none none none none none ∧
    CrossMapRouter.find_path ⟨[], []⟩ "A" 3 3 "A" (some 0) (some 0) none none none =
      single_map_path ⟨[], []⟩ (normalize_map_id "A") 3 3 3 3 [] TileWeights.default [] :=
  C10_zero_destination ⟨[], []⟩ "A" 3 3 "A" none none none none rfl

/-! ## C7 -/

/-- On the source graph every tile is classified `BLOCKED`, `TRAINER_VISION`
or `WALKABLE` (there is no per-tile grid). -/
theorem get_tile_type_cases (g : MapGraph) (x y : ℤ) :
    g.get_tile_type x y = .BLOCKED ∨ g.get_tile_type x y = .TRAINER_VISION ∨
      g.get_tile_type x y = .WALKABLE := by
  unfold MapGraph.get_tile_type
  split
  · exact Or.inl rfl
  · split
    · exact Or.inr (Or.inl rfl)
    · exact Or.inr (Or.inr rfl)

/-- No edge the graph ever yields carries an HM requirement, because the
tile classifier never produces `WATER`, `CUT_TREE` or `STRENGTH_BOULDER`. -/
theorem neighbors_requires_hm_none (g : MapGraph) (n : Node)
    (hms : Option (List String)) (w : Option TileWeights) (e : Edge)
    (he : e ∈ g.neighbors n hms w) : e.requires_hm = none := by
  simp only [MapGraph.neighbors, List.mem_filterMap] at he
  obtain ⟨d, -, hf⟩ := he
  rcases get_tile_type_cases g (n.x + d.1) (n.y + d.2.1) with ht | ht | ht <;>
    rw [ht] at hf <;>
    (split at hf <;> simp_all) <;>
    (obtain ⟨-, hf⟩ := hf
     split at hf
     · exact absurd hf (by simp)
     · injection hf with h
       subst h
       rfl)

theorem relaxEdge_hm_used_at (goal current : Node) (st : AState) (edge : Edge)
    (h : edge.requires_hm = none) :
    (relaxEdge goal current st edge).hm_used_at = st.hm_used_at := by
  simp only [relaxEdge, h]
  split
  · split <;> rfl
  · rfl

theorem foldl_relax_hm (goal current : Node) (l : List Edge) :
    ∀ (st : AState), (∀ e ∈ l, e.requires_hm = none) →
      (l.foldl (relaxEdge goal current) st).hm_used_at = st.hm_used_at := by
  induction l with
  | nil => intro st _; rfl
  | cons e rest ih =>
    intro st h
    rw [List.foldl_cons,
      ih _ (fun e' he' => h e' (List.mem_cons_of_mem e he')),
      relaxEdge_hm_used_at goal current st e (h e (List.mem_cons_self e rest))]

theorem expand_hm_used_at (g : MapGraph) (hms : Option (List String))
    (w : Option TileWeights) (goal current : Node) (st : AState) :
    (expand g hms w goal current st).hm_used_at = st.hm_used_at :=
  foldl_relax_hm goal current _ st
    (fun e he => neighbors_requires_hm_none g current hms w e he)

theorem collectHMs_nil (path : List Node) : collectHMs [] path = [] := by
  have h : List.filterMap (alookup ([] : List (Node × String))) path = [] :=
    List.filterMap_eq_nil_iff.mpr (fun a _ => rfl)
  unfold collectHMs
  rw [h]
  rfl

/-- The A* loop never records an HM, so every result reports an empty
`hms_required`. -/
theorem astarLoop_hms_required (g : MapGraph) (hms : Option (List String))
    (w : Option TileWeights) (goal : Node) (fuel : ℕ) :
    ∀ (iters : ℕ) (st : AState), st.hm_used_at = [] →
      (astarLoop g hms w goal fuel iters st).hms_required = [] := by
  induction fuel with
  | zero => intro iters st _; rfl
  | succ fuel ih =>
    intro iters st h
    unfold astarLoop
    cases hpop : popMin st.open_set with
    | none => rfl
    | some pr =>
      obtain ⟨entry, rest⟩ := pr
      dsimp only
      split
      · simp only [successResult, h]
        exact collectHMs_nil _
      · exact ih _ _ (by rw [expand_hm_used_at]; exact h)

/-- C7: HM completeness of reported requirements holds for every successful
A* result.  On the source graph it holds because no HM is ever reported:
the graph's tile classifier (graph.py `get_tile_type`) never yields an
HM-gated class, so every yielded edge has `requires_hm = None` and
`hms_required` is always the empty list — hence no HM appears in
`hms_required` that no move on the final path needed. -/
theorem C7_hm_completeness (g : MapGraph) (n s t : Node)
    (hms : Option (List String)) (w : Option TileWeights) (cap : ℕ) :
    ((g.neighbors n hms w).all fun e => e.requires_hm == none) = true ∧
    (astar g s t hms w cap).hms_required = [] := by
  constructor
  · rw [List.all_eq_true]
    intro e he
    rw [neighbors_requires_hm_none g n hms w e he]
    rfl
  · unfold astar
    split
    · rfl
    · split
      · rfl
      · exact astarLoop_hms_required g hms w t cap 0 _ rfl

/-! ## C9 -/

/-- `start == goal`: the very first pop of the open set is the start node
and equals the goal, so A* succeeds with the one-node path, no moves, cost 0
and one explored node. -/
theorem astar_self (g : MapGraph) (s : Node) (hms : Option (List String))
    (w : Option TileWeights) (cap : ℕ) (hb : g.in_bounds s.x s.y = true)
    (hcap : 1 ≤ cap) :
    astar g s s hms w cap = ⟨true, [s], [], 0, [], 1⟩ := by
  obtain ⟨k, rfl⟩ : ∃ k, cap = k + 1 := ⟨cap - 1, by omega⟩
  unfold astar
  rw [if_neg (by simp [hb]), if_neg (by simp [hb])]
  unfold astarLoop
  dsimp only [popMin, popMinAux]
  simp [successResult, reconstruct_path, reconstructAux, alookup, path_to_moves,
    collectHMs]

/-- C9: the degenerate path.  `astar` with `start == goal` (in bounds, cap at
least 1) succeeds with an empty move list and total cost 0; and the router's
same-map result for `from == to` (destination omitted) is success with one
segment with empty moves, `total_moves = 0` and empty `hms_required`. -/
theorem C9_degenerate (g : MapGraph) (s : Node) (hms : Option (List String))
    (w : Option TileWeights) (cap : ℕ) (st : RouterState) (map_id : String)
    (x y : ℤ) (hms2 : Option (List String)) (w2 : Option TileWeights)
    (d2 : Option (List String)) (hb : g.in_bounds s.x s.y = true) (hcap : 1 ≤ cap)
    (hb2 : (get_map st (normalize_map_id map_id)).1.in_bounds x y = true) :
    astar g s s hms w cap = ⟨true, [s], [], 0, [], 1⟩ ∧
    (CrossMapRouter.find_path st map_id x y map_id none none hms2 w2 d2).1 =
      ⟨true, [(normalize_map_id map_id, [])], [normalize_map_id map_id], 0, [], []⟩ := by
  refine ⟨astar_self g s hms w cap hb hcap, ?_⟩
  unfold CrossMapRouter.find_path
  rw [if_pos rfl]
  unfold single_map_path
  dsimp only [pyOrInt]
  split
  · rw [astar_self]
    · rfl
    · exact hb2
    · omega
  · rw [astar_self]
    · rfl
    · exact hb2
    · omega

/-- C9 (witness): the degenerate path at a concrete map and position. -/
theorem C9_witness :
    astar gPlain ⟨1, 1⟩ ⟨1, 1⟩ none none 1 = ⟨true, [⟨1, 1⟩], [], 0, [], 1⟩ ∧
    (CrossMapRouter.find_path stT "A" 1 1 "A" none none none none none).1 =
      ⟨true, [(normalize_map_id "A", [])], [normalize_map_id "A"], 0, [], []⟩ :=
  C9_degenerate gPlain ⟨1, 1⟩ none none 1 stT "A" 1 1 none none none
    (by decide) (by decide) (by decide)

/-! ## C6 -/

/-- C6: ledges are one-way.  For each ledge class: `can_traverse_ledge`
holds exactly when the (upper-cased) move direction equals the ledge's
arrow; `is_passable` on a ledge holds exactly when a direction is given and
matches (no direction, or Python's falsy `""`, is rejected); the traversal
cost of a ledge tile is `1.0` for every HM set and policy; and no plan
position of any A* result is ever classified as a ledge by the graph — the
source's tile classifier never produces a ledge class — so in particular no
successful plan contains a move entering a ledge tile against its arrow. -/
theorem C6_ledge_one_way (l : TileType) (d : String) (dopt : Option String)
    (hms : Option (List String)) (w : Option TileWeights) (g : MapGraph)
    (s t : Node) (cap i : ℕ)
    (hl : isLedgeB l = true) :
    can_traverse_ledge l d = (pyUpper d == specLedgeArrow l) ∧
    is_passable l dopt hms = (pyUpper (dopt.getD "") == specLedgeArrow l) ∧
    get_tile_weight l hms w = some 1 ∧
    isLedgeB (g.get_tile_type ((astar g s t hms w cap).path.getD (i + 1) ⟨0, 0⟩).x
      ((astar g s t hms w cap).path.getD (i + 1) ⟨0, 0⟩).y) = false := by
  refine ⟨?_, ?_, ?_, ?_⟩
  · cases l <;> first
      | exact absurd hl (by decide)
      | exact str_beq_comm _ _
  · cases l <;> first
      | exact absurd hl (by decide)
      | (cases dopt with
         | none => rfl
         | some d' =>
           by_cases hd : d' = ""
           · subst hd; rfl
           · show (if d' ≠ "" then can_traverse_ledge _ d' else false) = _
             rw [if_pos hd]
             exact str_beq_comm _ _)
  · cases l <;> first
      | exact absurd hl (by decide)
      | rfl
  · rcases get_tile_type_cases g
        ((astar g s t hms w cap).path.getD (i + 1) ⟨0, 0⟩).x
        ((astar g s t hms w cap).path.getD (i + 1) ⟨0, 0⟩).y with ht | ht | ht <;>
      rw [ht] <;> rfl

/-- C6 (witness): the statement at `LEDGE_DOWN`, direction `"down"`, and a
concrete successful A* run. -/
theorem C6_witness :
    can_traverse_ledge .LEDGE_DOWN "down" = (pyUpper "down" == specLedgeArrow .LEDGE_DOWN) ∧
    is_passable .LEDGE_DOWN (some "down") none =
      (pyUpper ((some "down").getD "") == specLedgeArrow .LEDGE_DOWN) ∧
    get_tile_weight .LEDGE_DOWN none none = some 1 ∧
    isLedgeB (gPlain.get_tile_type
      ((astar gPlain ⟨0, 0⟩ ⟨1, 0⟩ none none 10).path.getD (0 + 1) ⟨0, 0⟩).x
      ((astar gPlain ⟨0, 0⟩ ⟨1, 0⟩ none none 10).path.getD (0 + 1) ⟨0, 0⟩).y) = false :=
  C6_ledge_one_way .LEDGE_DOWN "down" (some "down") none none gPlain ⟨0, 0⟩ ⟨1, 0⟩
    10 0 (by decide)

/-! ## C8 -/

/-- One unfolding of the A* main loop. -/
theorem astarLoop_step (g : MapGraph) (hms : Option (List String))
    (w : Option TileWeights) (goal : Node) (fuel iters : ℕ) (st : AState) :
    astarLoop g hms w goal (fuel + 1) iters st =
      match popMin st.open_set with
      | none => PathResult.failure iters
      | some (entry, rest) =>
        let current := entry.2.2
        let st1 : AState := { st with
          open_set := rest
          open_lookup := st.open_lookup.filter fun n => n ≠ current }
        if current = goal then successResult st1 current (iters + 1)
        else
          astarLoop g hms w goal fuel (iters + 1)
            (expand g hms w goal current st1) := rfl

/-- Every failing run of the loop either consumed all its fuel (the
iteration cap: `nodes_explored` lands exactly at `iters + fuel`) or drained
the open set, in which case granting one more unit of fuel changes nothing. -/
theorem astarLoop_failure (g : MapGraph) (hms : Option (List String))
    (w : Option TileWeights) (goal : Node) (fuel : ℕ) :
    ∀ (iters : ℕ) (st : AState),
      (astarLoop g hms w goal fuel iters st).success = false →
      (astarLoop g hms w goal fuel iters st).nodes_explored ≤ iters + fuel ∧
      ((astarLoop g hms w goal fuel iters st).nodes_explored = iters + fuel ∨
        astarLoop g hms w goal (fuel + 1) iters st =
          astarLoop g hms w goal fuel iters st) := by
  induction fuel with
  | zero =>
    intro iters st _
    exact ⟨Nat.le_refl _, Or.inl rfl⟩
  | succ fuel ih =>
    intro iters st h
    rw [astarLoop_step] at h ⊢
    cases hpop : popMin st.open_set with
    | none =>
      refine ⟨?_, Or.inr ?_⟩
      · show iters ≤ iters + (fuel + 1)
        omega
      · rw [astarLoop_step, hpop]
    | some pr =>
      obtain ⟨entry, rest⟩ := pr
      rw [hpop] at h
      dsimp only at h ⊢
      by_cases hg : entry.2.2 = goal
      · rw [if_pos hg] at h
        exact absurd h (by simp [successResult])
      · rw [if_neg hg] at h ⊢
        obtain ⟨h1, h2⟩ := ih (iters + 1) _ h
        refine ⟨by omega, ?_⟩
        rcases h2 with h2 | h2
        · left
          omega
        · right
          rw [astarLoop_step, hpop]
          dsimp only
          rw [if_neg hg]
          exact h2

/-- With in-bounds endpoints, `astar` is its main loop started on the
initial state; the initial state does not depend on the cap. -/
theorem astar_inb (g : MapGraph) (s t : Node) (hms : Option (List String))
    (w : Option TileWeights) (cap : ℕ) (hbs : g.in_bounds s.x s.y = true)
    (hbt : g.in_bounds t.x t.y = true) :
    astar g s t hms w cap = astarLoop g hms w t cap 0
      ⟨[(0, 0, s)], [s], 0, [], [(s, 0)], [(s, heuristic s t)], []⟩ := by
  unfold astar
  rw [if_neg (by simp [hbs]), if_neg (by simp [hbt])]

/-- C8: A* failure is a value, never an exception — the embedded loop is
total with at most `max_iterations` iterations (`nodes_explored ≤ cap`), and
every failing result was produced either by exhausting the iteration cap
(then `nodes_explored = cap` exactly) or by draining the open set (the goal
is unreachable; then the same failure is returned for any larger cap, stated
here at `cap + 1`). -/
theorem C8_failure_as_value (g : MapGraph) (s t : Node)
    (hms : Option (List String)) (w : Option TileWeights) (cap : ℕ)
    (hbs : g.in_bounds s.x s.y = true) (hbt : g.in_bounds t.x t.y = true)
    (hf : (astar g s t hms w cap).success = false) :
    (astar g s t hms w cap).nodes_explored ≤ cap ∧
    ((astar g s t hms w cap).nodes_explored = cap ∨
      astar g s t hms w (cap + 1) = astar g s t hms w cap) := by
  rw [astar_inb g s t hms w cap hbs hbt] at hf ⊢
  rw [astar_inb g s t hms w (cap + 1) hbs hbt]
  have h := astarLoop_failure g hms w t cap 0 _ hf
  simpa using h

/-- C8 (witness): a concrete cap-exhausted failure (cap 1, far-away goal):
the cap case of the disjunction holds with `nodes_explored = 1`. -/
theorem C8_witness :
    (astar gPlain ⟨0, 0⟩ ⟨4, 4⟩ none none 1).nodes_explored ≤ 1 ∧
    ((astar gPlain ⟨0, 0⟩ ⟨4, 4⟩ none none 1).nodes_explored = 1 ∨
      astar gPlain ⟨0, 0⟩ ⟨4, 4⟩ none none (1 + 1) =
        astar gPlain ⟨0, 0⟩ ⟨4, 4⟩ none none 1) :=
  C8_failure_as_value gPlain ⟨0, 0⟩ ⟨4, 4⟩ none none 1
    (by decide) (by decide) (by decide)

/-! ## C4 -/

theorem alookup_aset {α β : Type} [DecidableEq α] (l : List (α × β)) (k : α)
    (v : β) (a : α) :
    alookup (aset l k v) a = if a = k then some v else alookup l a := by
  induction l with
  | nil => simp [aset, alookup]
  | cons e rest ih =>
    obtain ⟨k', v'⟩ := e
    by_cases hk : k = k' <;> by_cases ha : a = k' <;> by_cases hak : a = k <;>
      simp_all [aset, alookup]

theorem cachePreserved_refl (st : RouterState) : cachePreserved st st := by
  refine ⟨rfl, fun _ h => h, ?_⟩
  intro mid g' h
  rw [h]
  exact ⟨rfl, rfl⟩

theorem get_map_hit (st : RouterState) (m : String) (g : MapGraph)
    (hc : alookup st.map_cache (normalize_map_id m) = some g) :
    get_map st m = (g, st) := by
  simp only [get_map]
  rw [hc]

theorem get_map_miss (st : RouterState) (m : String)
    (hc : alookup st.map_cache (normalize_map_id m) = none) :
    get_map st m = (MapGraph.load st.store (normalize_map_id m),
      ⟨st.store, aset st.map_cache (normalize_map_id m)
        (MapGraph.load st.store (normalize_map_id m))⟩) := by
  simp only [get_map]
  rw [hc]

theorem get_map_cached (st : RouterState) (m : String) :
    alookup ((get_map st m).2).map_cache (normalize_map_id m) =
      some (get_map st m).1 := by
  cases hc : alookup st.map_cache (normalize_map_id m) with
  | some g =>
    rw [get_map_hit st m g hc]
    exact hc
  | none =>
    rw [get_map_miss st m hc]
    dsimp only
    rw [alookup_aset, if_pos rfl]

theorem get_map_preserves (st0 st : RouterState) (m : String)
    (h : cachePreserved st0 st) : cachePreserved st0 (get_map st m).2 := by
  obtain ⟨hs, hm, hsh⟩ := h
  cases hc : alookup st.map_cache (normalize_map_id m) with
  | some g =>
    rw [get_map_hit st m g hc]
    exact ⟨hs, hm, hsh⟩
  | none =>
    rw [get_map_miss st m hc]
    refine ⟨hs, ?_, ?_⟩
    · intro mid hmid
      dsimp only
      by_cases he : mid = normalize_map_id m
      · subst he
        simp [alookup_aset]
      · rw [alookup_aset, if_neg he]
        exact hm mid hmid
    · intro mid g' hg'
      dsimp only at hg'
      by_cases he : mid = normalize_map_id m
      · subst he
        rw [alookup_aset, if_pos rfl] at hg'
        have h0 : alookup st0.map_cache (normalize_map_id m) = none := by
          cases h0 : alookup st0.map_cache (normalize_map_id m) with
          | none => rfl
          | some g0 =>
            have hx := hm (normalize_map_id m) (by rw [h0]; rfl)
            rw [hc] at hx
            exact absurd hx (by simp)
        injection hg' with hg'
        rw [h0, ← hg', hs]
        exact ⟨rfl, rfl⟩
      · rw [alookup_aset, if_neg he] at hg'
        exact hsh mid g' hg'

theorem setzones_preserves (st0 st : RouterState) (m : String)
    (z : List (ℤ × ℤ)) (h : cachePreserved st0 st) :
    cachePreserved st0
      ⟨(get_map st m).2.store,
        aset (get_map st m).2.map_cache (normalize_map_id m)
          ((get_map st m).1.set_trainer_zones z)⟩ := by
  obtain ⟨hs, hm, hsh⟩ := get_map_preserves st0 st m h
  refine ⟨hs, ?_, ?_⟩
  · intro mid hmid
    dsimp only
    by_cases he : mid = normalize_map_id m
    · subst he
      simp [alookup_aset]
    · rw [alookup_aset, if_neg he]
      exact hm mid hmid
  · intro mid g' hg'
    dsimp only at hg'
    by_cases he : mid = normalize_map_id m
    · subst he
      rw [alookup_aset, if_pos rfl] at hg'
      injection hg' with hg'
      obtain ⟨h1, h2⟩ := hsh (normalize_map_id m) (get_map st m).1 (get_map_cached st m)
      exact ⟨hg' ▸ h1, hg' ▸ h2⟩
    · rw [alookup_aset, if_neg he] at hg'
      exact hsh mid g' hg'

theorem bfsLoop_preserves (st0 : RouterState) (to_map : String) (fuel : ℕ) :
    ∀ (st : RouterState) (queue : List (String × List String))
      (visited : List String), cachePreserved st0 st →
      cachePreserved st0 (bfsLoop to_map fuel st queue visited).2 := by
  induction fuel with
  | zero => intro st queue visited h; exact h
  | succ fuel ih =>
    intro st queue visited h
    unfold bfsLoop
    cases queue with
    | nil => exact h
    | cons q rest =>
      obtain ⟨current_map, path⟩ := q
      try dsimp only
      split
      · exact h
      · exact ih _ _ _ (get_map_preserves st0 st current_map h)

theorem buildLoop_preserves (st0 : RouterState) (hms : List String)
    (w : TileWeights) (dts : List String) (to_x to_y : Option ℤ)
    (seq : List String) :
    ∀ (st : RouterState) (cx cy : ℤ) (segs : List (String × List String))
      (trans : List MapTransition) (ahms : List String) (tm : ℕ)
      (trav : List String), cachePreserved st0 st →
      cachePreserved st0
        (buildLoop hms w dts to_x to_y st seq cx cy segs trans ahms tm trav).2 := by
  induction seq with
  | nil => intro st cx cy segs trans ahms tm trav h; exact h
  | cons map_id rest ih =>
    intro st cx cy segs trans ahms tm trav h
    unfold buildLoop
    try dsimp only
    by_cases hta : w.trainer_adjacent > 1
    · rw [if_pos hta]
      try dsimp only
      cases rest with
      | nil =>
        try dsimp only
        split
        · exact ih _ _ _ _ _ _ _ _ (setzones_preserves st0 st map_id _ h)
        · exact setzones_preserves st0 st map_id _ h
      | cons next rest2 =>
        try dsimp only
        split
        · exact setzones_preserves st0 st map_id _ h
        · split
          · try dsimp only
            split
            · exact ih _ _ _ _ _ _ _ _
                (get_map_preserves st0 _ next (setzones_preserves st0 st map_id _ h))
            · exact ih _ _ _ _ _ _ _ _
                (get_map_preserves st0 _ next
                  (get_map_preserves st0 _ next (setzones_preserves st0 st map_id _ h)))
          · exact setzones_preserves st0 st map_id _ h
    · rw [if_neg hta]
      try dsimp only
      cases rest with
      | nil =>
        try dsimp only
        split
        · exact ih _ _ _ _ _ _ _ _ (get_map_preserves st0 st map_id h)
        · exact get_map_preserves st0 st map_id h
      | cons next rest2 =>
        try dsimp only
        split
        · exact get_map_preserves st0 st map_id h
        · split
          · try dsimp only
            split
            · exact ih _ _ _ _ _ _ _ _
                (get_map_preserves st0 _ next (get_map_preserves st0 st map_id h))
            · exact ih _ _ _ _ _ _ _ _
                (get_map_preserves st0 _ next
                  (get_map_preserves st0 _ next (get_map_preserves st0 st map_id h)))
          · exact get_map_preserves st0 st map_id h

theorem single_map_path_preserves (st0 st : RouterState) (map_id : String)
    (fx fy tx ty : ℤ) (hms : List String) (w : TileWeights) (dts : List String)
    (h : cachePreserved st0 st) :
    cachePreserved st0 (single_map_path st map_id fx fy tx ty hms w dts).2 := by
  unfold single_map_path
  try dsimp only
  by_cases hta : w.trainer_adjacent > 1
  · rw [if_pos hta]
    try dsimp only
    split
    · exact setzones_preserves st0 st map_id _ h
    · exact setzones_preserves st0 st map_id _ h
  · rw [if_neg hta]
    try dsimp only
    split
    · exact get_map_preserves st0 st map_id h
    · exact get_map_preserves st0 st map_id h

theorem find_map_sequence_preserves (st0 st : RouterState) (fm tm : String)
    (hms : List String) (h : cachePreserved st0 st) :
    cachePreserved st0 (find_map_sequence st fm tm hms).2 := by
  unfold find_map_sequence
  exact bfsLoop_preserves st0 tm _ st _ _ h

theorem find_path_preserves (st : RouterState) (from_map : String)
    (from_x from_y : ℤ) (to_map : String) (to_x to_y : Option ℤ)
    (hms : Option (List String)) (w : Option TileWeights)
    (dts : Option (List String)) :
    cachePreserved st (CrossMapRouter.find_path st from_map from_x from_y
      to_map to_x to_y hms w dts).2 := by
  unfold CrossMapRouter.find_path
  try dsimp only
  split
  · exact single_map_path_preserves st st _ _ _ _ _ _ _ _ (cachePreserved_refl st)
  · try dsimp only
    split
    · exact find_map_sequence_preserves st st _ _ _ (cachePreserved_refl st)
    · unfold build_multi_map_path
      exact buildLoop_preserves st _ _ _ _ _ _ _ _ _ _ _ _ _ _
        (find_map_sequence_preserves st st _ _ _ (cachePreserved_refl st))

/-- C4 (amended): a routing call never touches the store, never drops a
cache entry, and every `MapGraph` in the router's cache after a
`CrossMapRouter.find_path` call keeps the `map_id` and the loaded `data`
(dimensions, connections, warps, trainers, tile info) of the graph the cache
held before the call (or of the freshly loaded graph, for maps first touched
by this call).  Only the trainer-zones field is mutated — full immutability,
as claimed, is false. -/
theorem C4_cache_frame (st : RouterState) (from_map : String) (from_x from_y : ℤ)
    (to_map : String) (to_x to_y : Option ℤ) (hms : Option (List String))
    (w : Option TileWeights) (dts : Option (List String)) (mid : String)
    (g' : MapGraph)
    (h : alookup ((CrossMapRouter.find_path st from_map from_x from_y to_map
        to_x to_y hms w dts).2).map_cache mid = some g') :
    ((CrossMapRouter.find_path st from_map from_x from_y to_map to_x to_y
        hms w dts).2).store = st.store ∧
    g'.map_id = ((alookup st.map_cache mid).getD (MapGraph.load st.store mid)).map_id ∧
    g'.data = ((alookup st.map_cache mid).getD (MapGraph.load st.store mid)).data := by
  obtain ⟨hs, -, hsh⟩ := find_path_preserves st from_map from_x from_y to_map
    to_x to_y hms w dts
  exact ⟨hs, (hsh mid g' h).1, (hsh mid g' h).2⟩

/-- C4 (counterexample): a same-map routing call with default weights
overwrites the cached graph's trainer-zones field: before the call map `"A"`
is cached with empty zones, afterwards with `[(2,3),(2,4)]` — a field of a
cached `MapGraph` changed during routing. -/
theorem C4_counterexample :
    (alookup stT.map_cache "A").map (fun g => g.trainer_zones) = some [] ∧
    (alookup ((CrossMapRouter.find_path stT "A" 0 0 "A" none none none none
        none).2).map_cache "A").map (fun g => g.trainer_zones) =
      some [(2, 3), (2, 4)] := by
  refine ⟨by decide, by decide⟩

/-- C4 (witness): the amended frame statement at the concrete mutating call:
the graph cached for `"A"` after the call — its zones now `[(2,3),(2,4)]` —
keeps the identity and data of the graph the cache held before. -/
theorem C4_witness :
    ((CrossMapRouter.find_path stT "A" 0 0 "A" none none none none
        none).2).store = stT.store ∧
    (⟨"A", some jTrainer, [(2, 3), (2, 4)]⟩ : MapGraph).map_id =
      ((alookup stT.map_cache "A").getD (MapGraph.load stT.store "A")).map_id ∧
    (⟨"A", some jTrainer, [(2, 3), (2, 4)]⟩ : MapGraph).data =
      ((alookup stT.map_cache "A").getD (MapGraph.load stT.store "A")).data :=
  C4_cache_frame stT "A" 0 0 "A" none none none none none "A"
    ⟨"A", some jTrainer, [(2, 3), (2, 4)]⟩ (by decide)

end AgentRed
